import Mathlib

/-!
Verification development for the FAQ classification-and-retrieval agent of
this repository.  The agent core (taxonomy store, query-rewrite client,
classifier client, orchestrator) is specified in the repository's agent
README and the design spec; the React frontend (App.js variants) is embedded
directly from its source.  Machine strings are Lean `String`s, ordered
mappings are association lists, and fallible steps return `Except`/`Option`.
-/

namespace FaqAgent

/-- Modelled from the spec: a node of the FAQ taxonomy tree (data model
section, `FaqNode`; the concrete `data_parser.py` is not under `src/`).
The FAQ document is conceptually JSON whose entries carry a full dotted-path
key, a description, an ordered children mapping and an optional leaf answer,
so the document and the parsed tree share this shape; `load` below validates
tree-ness and builds the key index. -/
inductive FaqNode where
  | mk (key : String) (description : String) (children : List FaqNode)
      (answer : Option String)

/-- The dotted-path key of a node. -/
def FaqNode.key : FaqNode → String
  | .mk k _ _ _ => k

/-- The human-readable description of a node. -/
def FaqNode.description : FaqNode → String
  | .mk _ d _ _ => d

/-- The ordered children of a node. -/
def FaqNode.children : FaqNode → List FaqNode
  | .mk _ _ cs _ => cs

/-- The optional leaf answer of a node. -/
def FaqNode.answer : FaqNode → Option String
  | .mk _ _ _ a => a

/-- Split a character list at dots, accumulating the current segment in
reverse. -/
def splitAux : List Char → List Char → List (List Char)
  | [], acc => [acc.reverse]
  | c :: cs, acc =>
    if c = '.' then acc.reverse :: splitAux cs [] else splitAux cs (c :: acc)

/-- The dot-separated segments of a key path. -/
def pathSegments (s : String) : List String :=
  (splitAux s.data []).map (fun cs => String.mk cs)

/-- A dotted-path segment: non-empty and containing no dot. -/
def isSegment (s : String) : Bool :=
  !s.data.isEmpty && !s.data.contains '.'

/-- Modelled from the spec: the key of a child extends the key of its parent
by exactly one dot-separated segment; a top-level category (conceptual
parent written as the empty string, the root sentinel `0` being a plain
marker rather than a stored node) is a single segment. -/
def keyExtends (parent k : String) : Bool :=
  let ps := if parent = "" then [] else pathSegments parent
  match (pathSegments k).getLast? with
  | none => false
  | some seg => isSegment seg && (pathSegments k).dropLast == ps

mutual

/-- All keys of a node and its descendants, in preorder. -/
def nodeKeys : FaqNode → List String
  | .mk k _ cs _ => k :: forestKeys cs

/-- All keys of a forest, in preorder. -/
def forestKeys : List FaqNode → List String
  | [] => []
  | n :: ns => nodeKeys n ++ forestKeys ns

end

mutual

/-- The arena index entries contributed by a node: its own key paired with
the node, followed by the entries of its descendants. -/
def nodeIndex : FaqNode → List (String × FaqNode)
  | .mk k d cs a => (k, .mk k d cs a) :: forestIndex cs

/-- The arena index entries contributed by a forest. -/
def forestIndex : List FaqNode → List (String × FaqNode)
  | [] => []
  | n :: ns => nodeIndex n ++ forestIndex ns

end

/-- Modelled from the spec: the load-time failure of the Taxonomy Store when
the document does not form a valid tree. -/
inductive MalformedTaxonomyError where
  | duplicateKey (k : String)
  | danglingPath (parent k : String)
  | badShape (k : String)
deriving Repr, DecidableEq

mutual

/-- Modelled from the spec: structural validation of one document node under
a given parent key — the key must extend the parent key by one segment, the
node must have either non-empty children or a non-null answer (never
neither, and an answer inconsistently placed on a node that also has
children is rejected), and the children must validate recursively. -/
def checkNode (parent : String) : FaqNode → Except MalformedTaxonomyError Unit
  | .mk k _ cs a =>
    if !keyExtends parent k then .error (.danglingPath parent k)
    else if !(cs.isEmpty == a.isSome) then .error (.badShape k)
    else checkForest k cs

/-- Structural validation of a list of sibling document nodes. -/
def checkForest (parent : String) : List FaqNode → Except MalformedTaxonomyError Unit
  | [] => .ok ()
  | n :: ns =>
    match checkNode parent n with
    | .error e => .error e
    | .ok _ => checkForest parent ns

end

mutual

/-- Boolean counterpart of `checkNode`, used to state well-formedness. -/
def nodeOk (parent : String) : FaqNode → Bool
  | .mk k _ cs a =>
    keyExtends parent k && (cs.isEmpty == a.isSome) && forestOk k cs

/-- Boolean counterpart of `checkForest`. -/
def forestOk (parent : String) : List FaqNode → Bool
  | [] => true
  | n :: ns => nodeOk parent n && forestOk parent ns

end

/-- The first key that occurs again later in the list, if any. -/
def findDuplicate : List String → Option String
  | [] => none
  | k :: ks => if ks.contains k then some k else findDuplicate ks

/-- A document forms a valid tree: every node passes the structural checks
and no key occurs twice anywhere in the document. -/
def WellFormedDoc (doc : List FaqNode) : Prop :=
  forestOk "" doc = true ∧ (forestKeys doc).Nodup

instance (doc : List FaqNode) : Decidable (WellFormedDoc doc) :=
  inferInstanceAs (Decidable (forestOk "" doc = true ∧ (forestKeys doc).Nodup))

/-- Modelled from the spec: the Taxonomy Store — the validated forest of
top-level categories together with the arena index from dotted-path key to
node (design note: an arena of nodes indexed by dotted-path string, so that
lookup by path is a direct map access). -/
structure Store where
  roots : List FaqNode
  index : List (String × FaqNode)

/-- Modelled from the spec: `load` parses the FAQ document into the store,
failing with `MalformedTaxonomyError` on a dangling path, an inconsistent
children/answer shape, or a duplicate key; on success it publishes the
forest together with its key index. -/
def load (doc : List FaqNode) : Except MalformedTaxonomyError Store :=
  match checkForest "" doc with
  | .error e => .error e
  | .ok _ =>
    match findDuplicate (forestKeys doc) with
    | some k => .error (.duplicateKey k)
    | none => .ok ⟨doc, forestIndex doc⟩

/-- Modelled from the spec: hot reload is all-or-nothing — the new document
is fully validated and built before being published, and a corrupt document
leaves the currently-serving store in place. -/
def reload (current : Store) (doc : List FaqNode) : Store :=
  match load doc with
  | .ok s => s
  | .error _ => current

/-- Direct map access into the arena index. -/
def findNode (s : Store) (p : String) : Option FaqNode :=
  (s.index.find? (fun e => e.fst == p)).map Prod.snd

/-- Modelled from the spec: `lookup` returns the node's answer if the path
resolves to a leaf with an answer, and the "no match" outcome (`none`) if
the path is the sentinel `"0"`, is syntactically invalid or absent (then it
is simply not a key of the index), or resolves to a node lacking a final
answer; the spec guarantees `matched = true` comes with a non-empty answer,
so an empty answer string counts as no final answer.  Lookup is a total
function: malformed input is absorbed into the "no match" outcome. -/
def Store.lookup (s : Store) (p : String) : Option String :=
  if p = "0" then none
  else
    match findNode s p with
    | none => none
    | some n =>
      match n.answer with
      | none => none
      | some a => if a = "" then none else some a

/-- One line of the directory rendering: indentation level, key and
description. -/
structure DirLine where
  indent : Nat
  key : String
  description : String
deriving Repr, DecidableEq

mutual

/-- Directory rendering of one node at a given depth: its own line followed
by the lines of its children one level deeper.  Answers are not consulted. -/
def renderNode (depth : Nat) : FaqNode → List DirLine
  | .mk k d cs _ => ⟨depth, k, d⟩ :: renderForest (depth + 1) cs

/-- Directory rendering of a forest at a given depth. -/
def renderForest (depth : Nat) : List FaqNode → List DirLine
  | [] => []
  | n :: ns => renderNode depth n ++ renderForest depth ns

end

/-- Modelled from the spec: `renderDirectory` produces the finite sequence
of outline lines (indentation level, key, description) describing the tree,
used verbatim inside the classification prompt. -/
def renderDirectory (s : Store) : List DirLine :=
  renderForest 0 s.roots

/-- The directory rendering flattened to the prompt text handed to the
classifier. -/
def directoryText (s : Store) : String :=
  String.intercalate "\n"
    ((renderDirectory s).map fun l =>
      String.mk (List.replicate (2 * l.indent) ' ') ++ l.key ++ " " ++ l.description)

mutual

/-- Apply a transformation to every answer field of a node and its
descendants, leaving keys and descriptions untouched. -/
def nodeMapAnswers (f : Option String → Option String) : FaqNode → FaqNode
  | .mk k d cs a => .mk k d (forestMapAnswers f cs) (f a)

/-- Apply a transformation to every answer field in a forest. -/
def forestMapAnswers (f : Option String → Option String) : List FaqNode → List FaqNode
  | [] => []
  | n :: ns => nodeMapAnswers f n :: forestMapAnswers f ns

end

/-- Replace every answer field throughout a store (tree and index alike)
while leaving keys and descriptions untouched; used to state that the
directory rendering never exposes answer text. -/
def Store.mapAnswers (f : Option String → Option String) (s : Store) : Store :=
  ⟨forestMapAnswers f s.roots, s.index.map (fun e => (e.1, nodeMapAnswers f e.2))⟩

/-- Modelled from the spec: the role of one conversation turn. -/
inductive Role where
  | user
  | assistant
deriving Repr, DecidableEq

/-- Modelled from the spec: one turn of the support conversation, oldest
first in a sequence; the last turn is presumed to be the current user
question. -/
structure ConversationTurn where
  role : Role
  content : String
deriving Repr, DecidableEq

/-- Modelled from the spec: free-form key/value context parameters passed
through to prompts verbatim. -/
abbrev ContextParams := List (String × String)

/-- Modelled from the spec: the language model's raw structured output for
the classify step. -/
structure ClassificationResult where
  category_key_path : String
  reason : String
deriving Repr, DecidableEq

/-- Modelled from the spec: the structured result the agent returns to its
caller. -/
structure AgentResult where
  answer : String
  category_key_path : String
  matched : Bool
deriving Repr, DecidableEq

/-- Modelled from the spec: failure of the query-rewrite capability
(communication or malformed-response failures). -/
inductive RewriteUnavailableError where
  | unavailable
deriving Repr, DecidableEq

/-- Modelled from the spec: failure of the classify step — a parse failure
of the model's JSON output, or any transport failure. -/
inductive ClassifyError where
  | parseFailure
  | transportFailure
deriving Repr, DecidableEq

/-- Modelled from the spec: the only error `process` may raise — the
input-validation error for an empty conversation, raised before the state
machine starts. -/
inductive AgentError where
  | emptyConversation
deriving Repr, DecidableEq

/-- The most recent user turn of a conversation, if any. -/
def lastUserTurn (conv : List ConversationTurn) : Option ConversationTurn :=
  conv.reverse.find? (fun t => t.role == Role.user)

/-- The literal content of the last user turn (empty when the conversation
has no user turn). -/
def lastUserContent (conv : List ConversationTurn) : String :=
  match lastUserTurn conv with
  | some t => t.content
  | none => ""

/-- The conversation contains at least one user turn. -/
def HasUserTurn (conv : List ConversationTurn) : Prop :=
  ∃ t ∈ conv, t.role = Role.user

instance (conv : List ConversationTurn) : Decidable (HasUserTurn conv) :=
  inferInstanceAs (Decidable (∃ t ∈ conv, t.role = Role.user))

/-- A string that is empty or consists only of whitespace characters. -/
def isBlank (s : String) : Bool :=
  s.data.all (fun c => c = ' ' || c = '\t' || c = '\n' || c = '\r')

/-- Modelled from the spec: the Query Rewrite Client wraps the raw rewrite
model capability; on empty or whitespace-only model output it falls back to
the literal content of the last user turn, and it surfaces the model's
communication failures as `RewriteUnavailableError` for the orchestrator to
handle. -/
def queryRewriteClient
    (model : List ConversationTurn → ContextParams → Except RewriteUnavailableError String)
    (conv : List ConversationTurn) (ctx : ContextParams) :
    Except RewriteUnavailableError String :=
  match model conv ctx with
  | .error e => .error e
  | .ok out => if isBlank out then .ok (lastUserContent conv) else .ok out

/-- Modelled from the spec: the query the orchestrator hands to the
classify step — the rewrite client's output, degraded to the last user
turn's literal content when the rewrite step fails with
`RewriteUnavailableError` (rewriting is an optimization, not a correctness
requirement). -/
def processQuery
    (rewrite : List ConversationTurn → ContextParams → Except RewriteUnavailableError String)
    (conv : List ConversationTurn) (ctx : ContextParams) : String :=
  match rewrite conv ctx with
  | .ok q => q
  | .error _ => lastUserContent conv

/-- Modelled from the spec: the deterministic generic fallback answer used
whenever no FAQ answer is found. -/
def fallbackAnswer : String := "no answer found"

/-- Modelled from the spec: the `CLASSIFYING → CLASSIFIED → RESOLVING`
tail of the orchestrator's state machine.  A classify failure transitions
directly to `FALLBACK` with path `"0"` and `matched = false`; otherwise the
claimed path is resolved through the store, reaching `ANSWERED` on a match
and `FALLBACK` on a miss (keeping the model's claimed path in the result). -/
def classifyStage (store : Store)
    (classify : String → String → Except ClassifyError ClassificationResult)
    (query : String) : AgentResult :=
  match classify query (directoryText store) with
  | .error _ => ⟨fallbackAnswer, "0", false⟩
  | .ok cr =>
    match store.lookup cr.category_key_path with
    | some a => ⟨a, cr.category_key_path, true⟩
    | none => ⟨fallbackAnswer, cr.category_key_path, false⟩

/-- Modelled from the spec: `Agent.process` (the missing `agent.py`
orchestrator).  An empty conversation raises the input-validation error
synchronously, before the state machine starts; otherwise the state machine
`RECEIVED → REWRITING → REWRITTEN → CLASSIFYING → CLASSIFIED → RESOLVING →
ANSWERED | FALLBACK` runs to a terminal `AgentResult`, degrading every
rewrite, classify and lookup failure instead of raising. -/
def process (store : Store)
    (rewrite : List ConversationTurn → ContextParams → Except RewriteUnavailableError String)
    (classify : String → String → Except ClassifyError ClassificationResult)
    (conversation : List ConversationTurn) (context : ContextParams) :
    Except AgentError AgentResult :=
  if conversation.isEmpty then .error .emptyConversation
  else .ok (classifyStage store classify (processQuery rewrite conversation context))

end FaqAgent

namespace Frontend

/-- The sender tag of a message in the React app's message list
(`src/unnamed/part_001`, `src/unnamed/part_002`). -/
inductive Sender where
  | user
  | ai
  | error
deriving Repr, DecidableEq

/-- One candidate answer object as parsed from the backend's
`response_text` JSON array (fields used by `handleSend`). -/
structure Candidate where
  content : String
  reason : Option String
deriving Repr, DecidableEq

/-- One entry of the frontend `messages` state, restricted to the fields
`handleSend` reads and writes for the embedded logic (`sender`, `text`, and
for AI messages the candidate list and selected index; timestamps and usage
display data do not influence the embedded behavior). -/
structure Msg where
  sender : Sender
  text : String
  candidateAnswers : List Candidate
  selectedIndex : Nat
deriving Repr, DecidableEq

/-- The mapping `handleSend` applies to one prior message: `user` senders
become role `user`, every other (non-error) sender becomes `assistant`, and
the text is carried over as content. -/
def msgToTurn (m : Msg) : FaqAgent.ConversationTurn :=
  ⟨if m.sender == Sender.user then FaqAgent.Role.user else FaqAgent.Role.assistant, m.text⟩

/-- The conversation `handleSend` sends to the `/chat` endpoint
(`src/unnamed/part_001` lines 116–125, `src/unnamed/part_002` lines
220–229): prior messages with error senders filtered out and mapped to API
roles, then the current user input appended as a final user turn. -/
def buildConversation (messages : List Msg) (currentInput : String) :
    List FaqAgent.ConversationTurn :=
  (messages.filter (fun m => m.sender != Sender.error)).map msgToTurn
    ++ [⟨FaqAgent.Role.user, currentInput⟩]

/-- The outcome of the frontend's attempt to read the backend's
`response_text` as a JSON candidate array (`JSON.parse` is a JavaScript
builtin, external to the repository, so its outcome is abstracted):
`failure` when `JSON.parse` throws because the text is not parseable as
JSON, `success` with the decoded candidate objects otherwise. -/
inductive ParseOutcome where
  | failure
  | success (candidates : List Candidate)
deriving Repr, DecidableEq

/-- The error text the `handleSend` catch branch displays for the error the
try block throws on an unparseable `response_text`: the thrown `Error` has
no `response` field, so the template falls through to `error.message`,
which is the raw response text behind the fixed marker. -/
def backendErrorText (raw : String) : String :=
  "后台报错:" ++ raw

/-- The response-processing tail of `handleSend` in `src/unnamed/part_002`
(lines 257–299): parse `response_text` as a JSON candidate array and take
the first candidate's content; on a parse failure — or on the first-element
access throwing on an empty array — throw into the catch branch, which
appends a single error-sender message and leaves the session id untouched.
Returns the new message list and the new current session id. -/
def processAiResponse (parsed : ParseOutcome) (raw : String) (msgs : List Msg)
    (respSession : Option String) (curSession : Option String) :
    List Msg × Option String :=
  match parsed with
  | .failure => (msgs ++ [⟨Sender.error, backendErrorText raw, [], 0⟩], curSession)
  | .success cands =>
    match cands.head? with
    | none => (msgs ++ [⟨Sender.error, backendErrorText raw, [], 0⟩], curSession)
    | some c => (msgs ++ [⟨Sender.ai, c.content, cands, 0⟩], respSession)

end Frontend


namespace FaqAgent

/-- A loaded lookup result is never the empty string: an empty answer is
absorbed into the "no match" outcome. -/
theorem lookup_ne_empty {s : Store} {p a : String} (h : s.lookup p = some a) :
    a ≠ "" := by
  unfold Store.lookup at h
  by_cases hp : p = "0"
  · simp [hp] at h
  · simp only [hp, if_false] at h
    cases hf : findNode s p with
    | none => simp [hf] at h
    | some n =>
      cases ha : n.answer with
      | none => simp [hf, ha] at h
      | some a0 =>
        by_cases h0 : a0 = ""
        · simp [hf, ha, h0] at h
        · simp [hf, ha, h0] at h
          subst h
          exact h0

mutual

/-- The node-level checker succeeds exactly when its boolean counterpart
holds. -/
theorem checkNode_ok_iff (p : String) (n : FaqNode) :
    checkNode p n = .ok () ↔ nodeOk p n = true := by
  match n with
  | .mk k d cs a =>
    rw [checkNode, nodeOk]
    by_cases h1 : keyExtends p k
    · by_cases h2 : (cs.isEmpty == a.isSome) = true
      · simp [h1, h2, checkForest_ok_iff k cs]
      · simp [h1, h2]
    · simp [h1]

/-- The forest-level checker succeeds exactly when its boolean counterpart
holds. -/
theorem checkForest_ok_iff (p : String) (ns : List FaqNode) :
    checkForest p ns = .ok () ↔ forestOk p ns = true := by
  match ns with
  | [] => simp [checkForest, forestOk]
  | n :: ns' =>
    rw [checkForest, forestOk]
    cases hc : checkNode p n with
    | error e =>
      have : ¬ nodeOk p n = true := by
        intro hn
        have := (checkNode_ok_iff p n).2 hn
        rw [hc] at this
        exact absurd this (by simp)
      simp [this]
    | ok u =>
      cases u
      have : nodeOk p n = true := (checkNode_ok_iff p n).1 hc
      simp [this, checkForest_ok_iff p ns']

end

/-- `findDuplicate` finds nothing exactly on duplicate-free lists. -/
theorem findDuplicate_eq_none_iff (ks : List String) :
    findDuplicate ks = none ↔ ks.Nodup := by
  induction ks with
  | nil => simp [findDuplicate]
  | cons k ks ih =>
    rw [findDuplicate]
    by_cases h : ks.contains k
    · have hk : k ∈ ks := by simpa using h
      simp [h, hk]
    · have hk : k ∉ ks := by simpa using h
      simp [h, hk, ih]

/-- Characterization of a successful load: the document is well-formed and
the published store is the document together with its index. -/
theorem load_eq_ok_iff (doc : List FaqNode) (s : Store) :
    load doc = .ok s ↔ (WellFormedDoc doc ∧ s = ⟨doc, forestIndex doc⟩) := by
  rw [load, WellFormedDoc]
  cases hc : checkForest "" doc with
  | error e =>
    have : ¬ forestOk "" doc = true := by
      intro hf
      have := (checkForest_ok_iff "" doc).2 hf
      rw [hc] at this
      exact absurd this (by simp)
    simp [this]
  | ok u =>
    cases u
    have hok : forestOk "" doc = true := (checkForest_ok_iff "" doc).1 hc
    cases hd : findDuplicate (forestKeys doc) with
    | some k =>
      have : ¬ (forestKeys doc).Nodup := by
        intro hn
        have := (findDuplicate_eq_none_iff (forestKeys doc)).2 hn
        rw [hd] at this
        exact absurd this (by simp)
      simp [hok, this]
    | none =>
      have hn : (forestKeys doc).Nodup := (findDuplicate_eq_none_iff _).1 hd
      simp [hok, hn]
      constructor
      · intro h; exact h.symm
      · intro h; exact h.symm


/-- A validated node's key extends its parent key. -/
theorem nodeOk_extends {p : String} {n : FaqNode} (h : nodeOk p n = true) :
    keyExtends p n.key = true := by
  cases n with
  | mk k d cs a =>
    rw [nodeOk] at h
    simp only [Bool.and_eq_true] at h
    exact h.1.1

/-- A validated node has non-empty children exactly when it has no answer. -/
theorem nodeOk_shape {p : String} {n : FaqNode} (h : nodeOk p n = true) :
    (n.children.isEmpty == n.answer.isSome) = true := by
  cases n with
  | mk k d cs a =>
    rw [nodeOk] at h
    simp only [Bool.and_eq_true] at h
    exact h.1.2

/-- A validated node's children validate under its own key. -/
theorem nodeOk_forest {p : String} {n : FaqNode} (h : nodeOk p n = true) :
    forestOk n.key n.children = true := by
  cases n with
  | mk k d cs a =>
    rw [nodeOk] at h
    simp only [Bool.and_eq_true] at h
    exact h.2

/-- Every member of a validated forest is itself validated. -/
theorem forestOk_mem {p : String} {ns : List FaqNode} (h : forestOk p ns = true)
    {n : FaqNode} (hm : n ∈ ns) : nodeOk p n = true := by
  induction ns with
  | nil => cases hm
  | cons m ms ih =>
    rw [forestOk, Bool.and_eq_true] at h
    cases hm with
    | head => exact h.1
    | tail _ hm' => exact ih h.2 hm'

/-- The per-node structural invariant recorded by validation: every child
key extends the node's own key by one segment, and the node has children
exactly when it lacks an answer. -/
def NodeInvariant (n : FaqNode) : Prop :=
  (∀ c ∈ n.children, keyExtends n.key c.key = true) ∧
  (n.children.isEmpty == n.answer.isSome) = true

/-- A validated node satisfies the per-node invariant. -/
theorem nodeOk_invariant {p : String} {n : FaqNode} (h : nodeOk p n = true) :
    NodeInvariant n := by
  refine ⟨?_, nodeOk_shape h⟩
  intro c hc
  exact nodeOk_extends (forestOk_mem (nodeOk_forest h) hc)

mutual

/-- Every index entry contributed by a validated node satisfies the
per-node invariant. -/
theorem nodeOk_index_invariant (p : String) (n : FaqNode) (h : nodeOk p n = true) :
    ∀ e ∈ nodeIndex n, NodeInvariant e.2 := by
  match n with
  | .mk k d cs a =>
    intro e he
    rw [nodeIndex] at he
    cases he with
    | head => exact nodeOk_invariant h
    | tail _ he' =>
      exact forestOk_index_invariant k cs (nodeOk_forest h) e he'

/-- Every index entry contributed by a validated forest satisfies the
per-node invariant. -/
theorem forestOk_index_invariant (p : String) (ns : List FaqNode)
    (h : forestOk p ns = true) : ∀ e ∈ forestIndex ns, NodeInvariant e.2 := by
  match ns with
  | [] => intro e he; simp [forestIndex] at he
  | n :: ns' =>
    intro e he
    rw [forestIndex] at he
    rw [forestOk, Bool.and_eq_true] at h
    rcases List.mem_append.1 he with he' | he'
    · exact nodeOk_index_invariant p n h.1 e he'
    · exact forestOk_index_invariant p ns' h.2 e he'

end

/-- A successful arena access exhibits a member of the index whose stored
key is the looked-up path. -/
theorem findNode_mem {s : Store} {p : String} {n : FaqNode}
    (h : findNode s p = some n) : (p, n) ∈ s.index := by
  unfold findNode at h
  cases hf : s.index.find? (fun e => e.fst == p) with
  | none => simp [hf] at h
  | some e =>
    simp only [hf, Option.map_some] at h
    have hm := List.mem_of_find?_eq_some hf
    have hp' : e.fst = p := by
      have hp := List.find?_some hf
      simpa using hp
    have : e = (p, n) := by
      cases e
      simp_all
    rw [this] at hm
    exact hm

mutual

/-- The keys of a node's directory rendering are exactly its preorder
keys. -/
theorem renderNode_keys (d : Nat) (n : FaqNode) :
    (renderNode d n).map DirLine.key = nodeKeys n := by
  match n with
  | .mk k de cs a =>
    simp [renderNode, nodeKeys, renderForest_keys (d + 1) cs]

/-- The keys of a forest's directory rendering are exactly its preorder
keys. -/
theorem renderForest_keys (d : Nat) (ns : List FaqNode) :
    (renderForest d ns).map DirLine.key = forestKeys ns := by
  match ns with
  | [] => simp [renderForest, forestKeys]
  | n :: ns' =>
    simp [renderForest, forestKeys, renderNode_keys d n, renderForest_keys d ns']

end

mutual

/-- The directory rendering of a node is unchanged by any transformation of
the answer fields: answers never reach the rendering. -/
theorem renderNode_mapAnswers (d : Nat) (f : Option String → Option String)
    (n : FaqNode) : renderNode d (nodeMapAnswers f n) = renderNode d n := by
  match n with
  | .mk k de cs a =>
    simp [nodeMapAnswers, renderNode, renderForest_mapAnswers (d + 1) f cs]

/-- The directory rendering of a forest is unchanged by any transformation
of the answer fields. -/
theorem renderForest_mapAnswers (d : Nat) (f : Option String → Option String)
    (ns : List FaqNode) : renderForest d (forestMapAnswers f ns) = renderForest d ns := by
  match ns with
  | [] => simp [forestMapAnswers, renderForest]
  | n :: ns' =>
    simp [forestMapAnswers, renderForest, renderNode_mapAnswers d f n,
      renderForest_mapAnswers d f ns']

end


/-- A string on which `isBlank` is false is in particular non-empty. -/
theorem ne_empty_of_not_blank {o : String} (h : isBlank o = false) : o ≠ "" := by
  intro h0
  subst h0
  simp [isBlank] at h

/-- C1: for every conversation containing at least one user turn, `process`
terminates and returns an `AgentResult` — either matched with a non-empty
answer or unmatched with the deterministic fallback answer — whatever the
rewrite and classify collaborators do (so no degradable failure ever
escapes as an exception); the only error `process` raises is the
input-validation error for the empty conversation, raised before the state
machine starts. -/
theorem process_total_on_user_turn (store : Store)
    (rw : List ConversationTurn → ContextParams → Except RewriteUnavailableError String)
    (cl : String → String → Except ClassifyError ClassificationResult)
    (conv : List ConversationTurn) (ctx : ContextParams) (h : HasUserTurn conv) :
    (∃ r, process store rw cl conv ctx = .ok r ∧
      ((r.matched = true ∧ r.answer ≠ "") ∨
        (r.matched = false ∧ r.answer = fallbackAnswer))) ∧
    process store rw cl [] ctx = .error .emptyConversation := by
  constructor
  · obtain ⟨t, ht, _⟩ := h
    have hne : conv ≠ [] := List.ne_nil_of_mem ht
    have hie : conv.isEmpty = false := by simpa using hne
    refine ⟨classifyStage store cl (processQuery rw conv ctx), ?_, ?_⟩
    · simp [process, hie]
    · rw [classifyStage]
      cases hc : cl (processQuery rw conv ctx) (directoryText store) with
      | error e => right; exact ⟨rfl, rfl⟩
      | ok cr =>
        dsimp only
        cases hl : store.lookup cr.category_key_path with
        | none => right; exact ⟨rfl, rfl⟩
        | some a => left; exact ⟨rfl, lookup_ne_empty hl⟩
  · simp [process]

/-- C2: on a loaded store, lookup returns an answer exactly when the path
is not the sentinel `"0"` and resolves through the index to a leaf carrying
that (non-empty) answer; every other string — the sentinel, the empty
string, syntactically invalid paths, absent paths, and paths of
answer-less nodes — yields the "no match" outcome, and lookup is a total
function, so it never raises. -/
theorem lookup_no_match_total (doc : List FaqNode) (s : Store)
    (h : load doc = .ok s) (p a : String) :
    s.lookup p = some a ↔
      (p ≠ "0" ∧ ∃ n, findNode s p = some n ∧ n.children = [] ∧
        n.answer = some a ∧ a ≠ "") := by
  obtain ⟨⟨hok, hnd⟩, hs⟩ := (load_eq_ok_iff doc s).1 h
  constructor
  · intro hl
    by_cases hp : p = "0"
    · rw [Store.lookup, if_pos hp] at hl
      exact absurd hl (by simp)
    · refine ⟨hp, ?_⟩
      rw [Store.lookup, if_neg hp] at hl
      cases hf : findNode s p with
      | none => simp [hf] at hl
      | some n =>
        cases ha : n.answer with
        | none => simp [hf, ha] at hl
        | some a0 =>
          by_cases h0 : a0 = ""
          · simp [hf, ha, h0] at hl
          · simp [hf, ha, h0] at hl
            subst hl
            refine ⟨n, rfl, ?_, ha, h0⟩
            have hmem : (p, n) ∈ s.index := findNode_mem hf
            have hinv : NodeInvariant n := by
              rw [hs] at hmem
              exact forestOk_index_invariant "" doc hok (p, n) hmem
            have hsh := hinv.2
            rw [ha] at hsh
            simp only [Option.isSome_some, beq_iff_eq] at hsh
            simpa using hsh
  · rintro ⟨hp, n, hf, hleaf, ha, h0⟩
    rw [Store.lookup, if_neg hp]
    simp [hf, ha, h0]

/-- C3: whenever the classify step fails — parse failure or transport
failure — on the query and directory actually handed to it, `process`
transitions directly to the fallback terminal: it returns (rather than
raises) an `AgentResult` with path `"0"`, `matched = false` and the
fallback answer. -/
theorem classification_failure_fallback (store : Store)
    (rw : List ConversationTurn → ContextParams → Except RewriteUnavailableError String)
    (cl : String → String → Except ClassifyError ClassificationResult)
    (conv : List ConversationTurn) (ctx : ContextParams) (e : ClassifyError)
    (h1 : conv ≠ [])
    (h2 : cl (processQuery rw conv ctx) (directoryText store) = .error e) :
    process store rw cl conv ctx = .ok ⟨fallbackAnswer, "0", false⟩ := by
  have hie : conv.isEmpty = false := by simpa using h1
  simp [process, hie, classifyStage, h2]

/-- C4 (counterexample): the query handed to the classifier can be empty as
the claim stands — a conversation whose (sole) user turn has empty content
together with a whitespace-only rewrite output degrades to that empty
content. -/
theorem rewritten_query_empty_cex :
    HasUserTurn [⟨Role.user, ""⟩] ∧
    processQuery (queryRewriteClient (fun _ _ => Except.ok " "))
      [⟨Role.user, ""⟩] [] = "" := by
  constructor
  · exact ⟨⟨Role.user, ""⟩, List.mem_singleton_self _, rfl⟩
  · rfl

/-- C4 (amended): provided the last user turn's content is non-empty, the
query handed to the classifier is never empty; on a rewrite failure the
literal last user content is used and the pipeline continues to the
classification stage rather than aborting, on blank model output the
client itself falls back to the literal last user content, and on
non-blank output the client passes the model's (non-empty) string
through. -/
theorem rewrite_fallback_query (store : Store)
    (model : List ConversationTurn → ContextParams → Except RewriteUnavailableError String)
    (cl : String → String → Except ClassifyError ClassificationResult)
    (conv : List ConversationTurn) (ctx : ContextParams)
    (h1 : HasUserTurn conv) (h2 : lastUserContent conv ≠ "") :
    processQuery (queryRewriteClient model) conv ctx ≠ "" ∧
    (∀ e, model conv ctx = .error e →
      processQuery (queryRewriteClient model) conv ctx = lastUserContent conv ∧
      process store (queryRewriteClient model) cl conv ctx =
        .ok (classifyStage store cl (lastUserContent conv))) ∧
    (∀ o, model conv ctx = .ok o → isBlank o = true →
      processQuery (queryRewriteClient model) conv ctx = lastUserContent conv) ∧
    (∀ o, model conv ctx = .ok o → isBlank o = false →
      processQuery (queryRewriteClient model) conv ctx = o) := by
  obtain ⟨t, ht, _⟩ := h1
  have hne : conv ≠ [] := List.ne_nil_of_mem ht
  have hie : conv.isEmpty = false := by simpa using hne
  refine ⟨?_, ?_, ?_, ?_⟩
  · cases hm : model conv ctx with
    | error e => simpa [processQuery, queryRewriteClient, hm] using h2
    | ok o =>
      cases hb : isBlank o with
      | true => simpa [processQuery, queryRewriteClient, hm, hb] using h2
      | false =>
        simpa [processQuery, queryRewriteClient, hm, hb] using
          ne_empty_of_not_blank hb
  · intro e hm
    constructor
    · simp [processQuery, queryRewriteClient, hm]
    · simp [process, hie, processQuery, queryRewriteClient, hm]
  · intro o hm hb
    simp [processQuery, queryRewriteClient, hm, hb]
  · intro o hm hb
    simp [processQuery, queryRewriteClient, hm, hb]

/-- C5: on a loaded store, every key present in the tree appears exactly
once among the keys of the directory rendering, and the rendering is
invariant under any replacement of the answer fields — answers never
appear in the rendered output, only keys and descriptions do. -/
theorem renderDirectory_keys_once_answers_absent (doc : List FaqNode) (s : Store)
    (h : load doc = .ok s) :
    (∀ k ∈ forestKeys s.roots,
      ((renderDirectory s).map DirLine.key).count k = 1) ∧
    ∀ f, renderDirectory (Store.mapAnswers f s) = renderDirectory s := by
  obtain ⟨⟨hok, hnd⟩, hs⟩ := (load_eq_ok_iff doc s).1 h
  subst hs
  constructor
  · intro k hk
    rw [renderDirectory, renderForest_keys]
    exact List.count_eq_one_of_mem hnd hk
  · intro f
    rw [renderDirectory, renderDirectory, Store.mapAnswers]
    exact renderForest_mapAnswers 0 f _

/-- C6: a document that does not form a valid tree (a dangling path, an
inconsistent children/answer shape, or a duplicate key) is rejected by
`load` with a `MalformedTaxonomyError`, and a hot reload given such a
document is all-or-nothing: the currently-serving store is still served
unchanged after the failed reload. -/
theorem load_rejects_malformed_reload_keeps (doc : List FaqNode) (cur : Store)
    (h : ¬ WellFormedDoc doc) :
    (∃ e, load doc = .error e) ∧ reload cur doc = cur := by
  cases hl : load doc with
  | ok s => exact absurd ((load_eq_ok_iff doc s).1 hl).1 h
  | error e =>
    refine ⟨⟨e, rfl⟩, ?_⟩
    simp [reload, hl]

/-- C7: every tree produced by a successful load satisfies the structural
invariant — each top-level key is a single segment over the conceptual
root, each indexed node's children extend that node's key by exactly one
dot-separated segment, and each node has a non-empty children list or a
non-null answer, never neither. -/
theorem load_tree_invariant (doc : List FaqNode) (s : Store)
    (h : load doc = .ok s) :
    (∀ r ∈ s.roots, keyExtends "" r.key = true) ∧
    ∀ e ∈ s.index,
      (∀ c ∈ e.2.children, keyExtends e.2.key c.key = true) ∧
      (e.2.children ≠ [] ∨ e.2.answer ≠ none) := by
  obtain ⟨⟨hok, hnd⟩, hs⟩ := (load_eq_ok_iff doc s).1 h
  subst hs
  constructor
  · intro r hr
    exact nodeOk_extends (forestOk_mem hok hr)
  · intro e he
    have hinv := forestOk_index_invariant "" doc hok e he
    refine ⟨hinv.1, ?_⟩
    by_cases hc : e.2.children = []
    · right
      have hsh : e.2.answer.isSome = true := by
        have := hinv.2
        rw [hc] at this
        simpa using this
      intro hn
      rw [hn] at hsh
      simp at hsh
    · left
      exact hc

/-- C8: `process` is deterministic in its collaborators — with the store
fixed and the rewrite and classifier stubs (pure functions here) equal,
two calls on the same conversation and context return equal results. -/
theorem process_deterministic (store : Store)
    (rw1 rw2 : List ConversationTurn → ContextParams → Except RewriteUnavailableError String)
    (cl1 cl2 : String → String → Except ClassifyError ClassificationResult)
    (conv : List ConversationTurn) (ctx : ContextParams)
    (hr : rw1 = rw2) (hc : cl1 = cl2) :
    process store rw1 cl1 conv ctx = process store rw2 cl2 conv ctx := by
  rw [hr, hc]

end FaqAgent

namespace Frontend

/-- C9: the conversation `handleSend` sends to `/chat` always satisfies the
agent's input shape — it is non-empty, its last turn is a user turn
carrying the current input, it contains a user turn (so the agent's
validation accepts it), its prior turns are exactly the non-error messages
mapped to user/assistant roles (error-sender messages are excluded), and
every turn's role is user or assistant. -/
theorem handleSend_conversation_shape (messages : List Msg) (currentInput : String) :
    buildConversation messages currentInput ≠ [] ∧
    (buildConversation messages currentInput).getLast? =
      some ⟨FaqAgent.Role.user, currentInput⟩ ∧
    FaqAgent.HasUserTurn (buildConversation messages currentInput) ∧
    (buildConversation messages currentInput).dropLast =
      (messages.filter (fun m => m.sender != Sender.error)).map msgToTurn ∧
    ∀ t ∈ buildConversation messages currentInput,
      t.role = FaqAgent.Role.user ∨ t.role = FaqAgent.Role.assistant := by
  refine ⟨?_, ?_, ?_, ?_, ?_⟩
  · simp [buildConversation]
  · rw [buildConversation]
    exact List.getLast?_concat _
  · refine ⟨⟨FaqAgent.Role.user, currentInput⟩, ?_, rfl⟩
    rw [buildConversation]
    exact List.mem_append_right _ (List.mem_singleton_self _)
  · rw [buildConversation]
    exact List.dropLast_concat
  · intro t _
    cases h : t.role
    · exact Or.inl rfl
    · exact Or.inr rfl

/-- C10: in the current frontend `handleSend`, when the backend's
`response_text` is not parseable as JSON, exactly one error-sender message
is appended — its text being the raw response text behind a fixed marker —
no AI message is appended, and the current session id is left unchanged. -/
theorem handleSend_parse_failure (raw : String) (msgs : List Msg)
    (respSession curSession : Option String) :
    processAiResponse ParseOutcome.failure raw msgs respSession curSession =
      (msgs ++ [⟨Sender.error, backendErrorText raw, [], 0⟩], curSession) ∧
    ∃ pre, backendErrorText raw = pre ++ raw :=
  ⟨rfl, "后台报错:", rfl⟩

end Frontend

namespace FaqAgent

/-- The refund leaf of the spec's example taxonomy. -/
def sampleLeaf : FaqNode := .mk "1.1" "refund" [] (some "Refunds take 3-5 days.")

/-- The billing category of the spec's example taxonomy. -/
def sampleRoot : FaqNode := .mk "1" "billing" [sampleLeaf] none

/-- The spec's example taxonomy document. -/
def sampleDoc : List FaqNode := [sampleRoot]

/-- The store the example document loads to. -/
def sampleStore : Store := ⟨sampleDoc, forestIndex sampleDoc⟩

/-- The example document loads successfully to the example store. -/
theorem sampleDoc_loads : load sampleDoc = .ok sampleStore := rfl

/-- A corrupt document: the key `"1"` occurs twice. -/
def dupDoc : List FaqNode :=
  [.mk "1" "a" [] (some "x"), .mk "1" "b" [] (some "y")]

/-- The example conversation: one user turn asking about refunds. -/
def sampleConv : List ConversationTurn := [⟨Role.user, "how long for a refund?"⟩]

/-- A deterministic rewrite stub. -/
def stubRewrite : List ConversationTurn → ContextParams → Except RewriteUnavailableError String :=
  fun _ _ => .ok "how long for a refund?"

/-- A deterministic classifier stub naming the refund leaf. -/
def stubClassify : String → String → Except ClassifyError ClassificationResult :=
  fun _ _ => .ok ⟨"1.1", "refund question"⟩

/-- A classifier stub that always fails with a transport failure. -/
def failClassify : String → String → Except ClassifyError ClassificationResult :=
  fun _ _ => .error .transportFailure

/-- A rewrite stub that always fails as unavailable. -/
def failRewrite : List ConversationTurn → ContextParams → Except RewriteUnavailableError String :=
  fun _ _ => .error .unavailable

/-- Witness for C1 at the example store, stubs and conversation. -/
theorem process_total_on_user_turn_w :
    ∃ r, process sampleStore stubRewrite stubClassify sampleConv [] = .ok r ∧
      ((r.matched = true ∧ r.answer ≠ "") ∨
        (r.matched = false ∧ r.answer = fallbackAnswer)) :=
  (process_total_on_user_turn sampleStore stubRewrite stubClassify sampleConv []
    ⟨⟨Role.user, "how long for a refund?"⟩, List.mem_singleton_self _, rfl⟩).1

/-- Witness for C2 at the example store and the refund path. -/
theorem lookup_no_match_total_w :
    sampleStore.lookup "1.1" = some "Refunds take 3-5 days." ↔
      ("1.1" ≠ "0" ∧ ∃ n, findNode sampleStore "1.1" = some n ∧ n.children = [] ∧
        n.answer = some "Refunds take 3-5 days." ∧ "Refunds take 3-5 days." ≠ "") :=
  lookup_no_match_total sampleDoc sampleStore sampleDoc_loads "1.1"
    "Refunds take 3-5 days."

/-- Witness for C3 at a failing classifier stub. -/
theorem classification_failure_fallback_w :
    process sampleStore stubRewrite failClassify sampleConv [] =
      .ok ⟨fallbackAnswer, "0", false⟩ :=
  classification_failure_fallback sampleStore stubRewrite failClassify sampleConv []
    .transportFailure (by decide) rfl

/-- Witness for the amended C4 at a failing rewrite stub. -/
theorem rewrite_fallback_query_w :
    processQuery (queryRewriteClient failRewrite) sampleConv [] ≠ "" :=
  (rewrite_fallback_query sampleStore failRewrite stubClassify sampleConv []
    ⟨⟨Role.user, "how long for a refund?"⟩, List.mem_singleton_self _, rfl⟩
    (by decide)).1

/-- Witness for C5 at the example store and the refund key. -/
theorem renderDirectory_keys_once_answers_absent_w :
    ((renderDirectory sampleStore).map DirLine.key).count "1.1" = 1 :=
  (renderDirectory_keys_once_answers_absent sampleDoc sampleStore sampleDoc_loads).1
    "1.1" (by decide)

/-- Witness for C6 at the duplicate-key document. -/
theorem load_rejects_malformed_reload_keeps_w :
    (∃ e, load dupDoc = .error e) ∧ reload sampleStore dupDoc = sampleStore :=
  load_rejects_malformed_reload_keeps dupDoc sampleStore (by decide)

/-- Witness for C7 at the example store's top-level category. -/
theorem load_tree_invariant_w : keyExtends "" sampleRoot.key = true :=
  (load_tree_invariant sampleDoc sampleStore sampleDoc_loads).1 sampleRoot
    (List.mem_singleton_self _)

/-- Witness for C8 at the deterministic stubs. -/
theorem process_deterministic_w :
    process sampleStore stubRewrite stubClassify sampleConv [] =
      process sampleStore stubRewrite stubClassify sampleConv [] :=
  process_deterministic sampleStore stubRewrite stubRewrite stubClassify stubClassify
    sampleConv [] rfl rfl

end FaqAgent

namespace Frontend

/-- An example frontend message list containing an error-sender message. -/
def sampleMsgs : List Msg :=
  [⟨Sender.user, "hi", [], 0⟩, ⟨Sender.error, "oops", [], 0⟩,
    ⟨Sender.ai, "hello", [], 0⟩]

/-- Witness for C9 at the example message list. -/
theorem handleSend_conversation_shape_w :
    (buildConversation sampleMsgs "how long for a refund?").getLast? =
      some ⟨FaqAgent.Role.user, "how long for a refund?"⟩ :=
  (handleSend_conversation_shape sampleMsgs "how long for a refund?").2.1

end Frontend
